import Mathlib

/-
  Verification of the context compaction engine of gemini-cli.

  Shallow embedding of:
  - GeminiClient.shouldTriggerCompression, handleCompressionSelection,
    tryCompressChat, handlePostResponseCompression (client source file)
  - GoalExtractionService (goalExtractionService.ts)
  - DeliberateCompressionHandler.shouldPromptUser
  - findCompressSplitPoint and ChatCompressionService.compress
    (chatCompressionService.ts)

  External collaborators (the language-model call, the token estimator,
  JSON serialization length, configuration getters, the clock) are passed
  in as explicit parameters, so each embedded function is a pure function
  of its inputs exactly as the source control flow dictates.
-/

deriving instance DecidableEq for Except

namespace Compaction

/-- Trigger decision returned by GeminiClient.shouldTriggerCompression. -/
structure TriggerDecision where
  shouldCompress : Bool
  reason : String
  isSafetyValve : Bool
  deriving DecidableEq

/-- Embedding of GeminiClient.shouldTriggerCompression.  Configuration
getters and the clock are parameters: `currentTokens` is
chat.getLastPromptTokenCount(), `modelLimit` is tokenLimit(model),
`tokenThreshold` is config.getCompressionTriggerTokens(),
`utilizationThreshold` is config.getCompressionTriggerUtilization(),
`minTimeBetween` is config.getCompressionMinTimeBetweenPrompts() in
seconds, `now` is Date.now() in milliseconds.  JS number arithmetic on
these quantities is modelled with exact rationals. -/
def shouldTriggerCompression (isCompressing : Bool)
    (currentTokens modelLimit tokenThreshold : ℕ)
    (utilizationThreshold : ℚ) (messagesSinceLastCompress minMessages : ℕ)
    (lastCompressionTime now : ℤ) (minTimeBetween : ℚ) : TriggerDecision :=
  if isCompressing then ⟨false, "compression_in_progress", false⟩
  else
    let utilization : ℚ := (currentTokens : ℚ) / (modelLimit : ℚ)
    if utilizationThreshold ≤ utilization then ⟨true, "utilization_threshold", true⟩
    else if currentTokens < tokenThreshold then ⟨false, "below_token_threshold", false⟩
    else if messagesSinceLastCompress < minMessages then ⟨false, "message_guard_failed", false⟩
    else if 0 < lastCompressionTime ∧
        ((now - lastCompressionTime : ℤ) : ℚ) / 1000 < minTimeBetween then
      ⟨false, "time_guard_failed", false⟩
    else ⟨true, "absolute_tokens", false⟩

/-- Claim C2: shouldTriggerCompression decides by first match in the order
compaction-in-progress, utilization safety valve, token threshold, message
guard, time guard, otherwise trigger; in particular whenever no compaction
is in progress and currentTokens / modelLimit reaches the utilization
threshold it returns the safety-valve decision regardless of the message
and time guard state. -/
theorem shouldTriggerCompression_first_match
    (ic : Bool) (ct ml tt : ℕ) (ut : ℚ) (ms mm : ℕ) (lct now : ℤ) (mtb : ℚ) :
    (ic = true →
      shouldTriggerCompression ic ct ml tt ut ms mm lct now mtb =
        ⟨false, "compression_in_progress", false⟩) ∧
    (ic = false → ut ≤ (ct : ℚ) / (ml : ℚ) →
      shouldTriggerCompression ic ct ml tt ut ms mm lct now mtb =
        ⟨true, "utilization_threshold", true⟩) ∧
    (ic = false → (ct : ℚ) / (ml : ℚ) < ut → ct < tt →
      shouldTriggerCompression ic ct ml tt ut ms mm lct now mtb =
        ⟨false, "below_token_threshold", false⟩) ∧
    (ic = false → (ct : ℚ) / (ml : ℚ) < ut → tt ≤ ct → ms < mm →
      shouldTriggerCompression ic ct ml tt ut ms mm lct now mtb =
        ⟨false, "message_guard_failed", false⟩) ∧
    (ic = false → (ct : ℚ) / (ml : ℚ) < ut → tt ≤ ct → mm ≤ ms →
      0 < lct → ((now - lct : ℤ) : ℚ) / 1000 < mtb →
      shouldTriggerCompression ic ct ml tt ut ms mm lct now mtb =
        ⟨false, "time_guard_failed", false⟩) ∧
    (ic = false → (ct : ℚ) / (ml : ℚ) < ut → tt ≤ ct → mm ≤ ms →
      ¬(0 < lct ∧ ((now - lct : ℤ) : ℚ) / 1000 < mtb) →
      shouldTriggerCompression ic ct ml tt ut ms mm lct now mtb =
        ⟨true, "absolute_tokens", false⟩) := by
  refine ⟨?_, ?_, ?_, ?_, ?_, ?_⟩ <;> intro h <;> subst h <;>
    simp only [shouldTriggerCompression, Bool.false_eq_true, if_false, if_true, ite_false,
      ite_true] <;> intros
  · rw [if_pos (by assumption)]
  · rw [if_neg (by simp [not_le]; assumption), if_pos (by assumption)]
  · rw [if_neg (by simp [not_le]; assumption), if_neg (by simp [not_lt]; assumption),
      if_pos (by assumption)]
  · rw [if_neg (by simp [not_le]; assumption), if_neg (by simp [not_lt]; assumption),
      if_neg (by simp [not_lt]; assumption), if_pos (by exact ⟨by assumption, by assumption⟩)]
  · rw [if_neg (by simp [not_le]; assumption), if_neg (by simp [not_lt]; assumption),
      if_neg (by simp [not_lt]; assumption), if_neg (by assumption)]

/-- Witness for claim C2: the safety-valve scenario from the spec, with
tokens 520000 of a 1000000 limit, utilization threshold one half, and only
2 messages since the last compaction (below any message guard). -/
theorem shouldTriggerCompression_first_match_witness :
    shouldTriggerCompression false 520000 1000000 40000 (1/2) 2 25 0 0 300 =
      ⟨true, "utilization_threshold", true⟩ :=
  (shouldTriggerCompression_first_match false 520000 1000000 40000 (1/2) 2 25 0 0
    300).2.1 rfl (by norm_num)

/-- JavaScript Math.round for a rational argument: the floor of x + 1/2.
This agrees with Math.round on every rational except float-precision
artifacts, which do not arise for the quantities involved here. -/
def jsRound (q : ℚ) : ℤ := Int.floor (q + 1/2)

/-- Embedding of the less_frequent branch of
GeminiClient.handleCompressionSelection: both the trigger-token and the
minimum-message settings are multiplied by the configured frequency
multiplier, rounded with Math.round, and capped with Math.min at 200000
tokens and 100 messages respectively.  Inputs are the current configured
values; the output pair is what is persisted by
setCompressionTriggerTokens / setCompressionMinMessages. -/
def lessFrequentAdjust (currentTokens currentMessages : ℤ) (multiplier : ℚ) : ℤ × ℤ :=
  (min (jsRound ((currentTokens : ℚ) * multiplier)) 200000,
   min (jsRound ((currentMessages : ℚ) * multiplier)) 100)

/-- Claim C5: each less_frequent selection multiplies both settings by the
multiplier, rounds, and caps them at 200000 tokens and 100 messages;
starting from the defaults (40000, 25) with multiplier 1.5, three repeated
selections yield exactly (60000, 38), (90000, 57), (135000, 86), and no
selection ever produces values exceeding the (200000, 100) caps. -/
theorem lessFrequentAdjust_spec :
    lessFrequentAdjust 40000 25 (3/2) = (60000, 38) ∧
    lessFrequentAdjust 60000 38 (3/2) = (90000, 57) ∧
    lessFrequentAdjust 90000 57 (3/2) = (135000, 86) ∧
    ∀ (t m : ℤ) (mult : ℚ),
      (lessFrequentAdjust t m mult).1 ≤ 200000 ∧ (lessFrequentAdjust t m mult).2 ≤ 100 := by
  refine ⟨?_, ?_, ?_, fun t m mult => ⟨min_le_right _ _, min_le_right _ _⟩⟩ <;>
    simp only [lessFrequentAdjust, jsRound, Prod.mk.injEq] <;> constructor <;> norm_num

/-- One part of a Content entry, keeping the fields the compaction engine
inspects: the text payload and whether a functionCall or functionResponse
marker is present.  A missing parts array in the source behaves exactly
like an empty one in every use site, so parts are a plain list. -/
structure Part where
  text : Option String
  functionCall : Bool
  functionResponse : Bool
  deriving DecidableEq

/-- One conversation message, mirroring the @google/genai Content shape
used by the engine. -/
structure Content where
  role : String
  parts : List Part
  deriving DecidableEq

/-- Result of findCompressSplitPoint in its options form. -/
structure SplitPointResult where
  splitIndex : ℕ
  historyToCompress : List Content
  historyToKeep : List Content
  deriving DecidableEq

/-- Embedding of the backward scan of findCompressSplitPoint under the
since-last-prompt strategy: the index of the last user-role message, or -1
when none exists, exactly as the source loop computes it. -/
def lastUserIndex : List Content → ℤ
  | [] => -1
  | c :: cs =>
    let r := lastUserIndex cs
    if 0 ≤ r then r + 1
    else if c.role = "user" then 0 else -1

/-- Embedding of findCompressSplitPoint with strategy since-last-prompt:
returns none when the last user message is at index zero or absent, or
when fewer than minMessagesToCompress messages precede it; otherwise the
split at that index. -/
def findCompressSplitPointSLP (contents : List Content) (minMessagesToCompress : ℕ) :
    Option SplitPointResult :=
  let k := lastUserIndex contents
  if k ≤ 0 then Option.none
  else if k < (minMessagesToCompress : ℤ) then Option.none
  else some ⟨k.toNat, contents.take k.toNat, contents.drop k.toNat⟩

/-- Characterization of the index of the last user-role message: it is a
valid index, holds a user message, and no later message is user-role. -/
def IsLastUserIndex (l : List Content) (k : ℕ) : Prop :=
  ∃ h : k < l.length, (l.get ⟨k, h⟩).role = "user" ∧
    ∀ c ∈ l.drop (k + 1), c.role ≠ "user"

theorem lastUserIndex_ge (l : List Content) : -1 ≤ lastUserIndex l := by
  induction l with
  | nil => simp [lastUserIndex]
  | cons c cs ih =>
    simp only [lastUserIndex]
    split
    · omega
    · split <;> omega

theorem lastUserIndex_eq_neg_one (l : List Content) :
    lastUserIndex l = -1 ↔ ∀ c ∈ l, c.role ≠ "user" := by
  induction l with
  | nil => simp [lastUserIndex]
  | cons c cs ih =>
    simp only [lastUserIndex, List.mem_cons]
    have hge := lastUserIndex_ge cs
    constructor
    · intro h
      split at h
      · omega
      · split at h
        · omega
        · intro x hx
          rcases hx with hx | hx
          · subst hx; assumption
          · exact (ih.mp (by omega)) x hx
    · intro h
      have hcs : lastUserIndex cs = -1 := ih.mpr fun x hx => h x (Or.inr hx)
      rw [if_neg (by omega), if_neg (h c (Or.inl rfl))]

theorem lastUserIndex_of_isLast (l : List Content) (k : ℕ) (h : IsLastUserIndex l k) :
    lastUserIndex l = k := by
  induction l generalizing k with
  | nil => exact absurd h.1 (by simp)
  | cons c cs ih =>
    obtain ⟨hk, huser, hafter⟩ := h
    cases k with
    | zero =>
      have hnone : ∀ x ∈ cs, x.role ≠ "user" := by
        intro x hx
        exact hafter x (by simpa using hx)
      have hcs : lastUserIndex cs = -1 := (lastUserIndex_eq_neg_one cs).mpr hnone
      simp only [lastUserIndex, hcs]
      rw [if_neg (by omega), if_pos (by simpa using huser)]
      simp
    | succ k =>
      have hk' : k < cs.length := by simpa [Nat.succ_lt_succ_iff] using hk
      have huser' : (cs.get ⟨k, hk'⟩).role = "user" := by simpa using huser
      have hafter' : ∀ x ∈ cs.drop (k + 1), x.role ≠ "user" := by
        intro x hx
        exact hafter x (by simpa using hx)
      have hcs : lastUserIndex cs = k := ih k ⟨hk', huser', hafter'⟩
      simp only [lastUserIndex, hcs]
      rw [if_pos (by omega)]
      push_cast
      ring

/-- Claim C3: with strategy since-last-prompt and minMessagesToCompress 5,
whenever k is the index of the last user-role message the split returns
exactly index k with the first k messages to compress and the rest kept
iff 5 ≤ k, and returns none when k < 5 (including k = 0) or when no user
message exists at all. -/
theorem findCompressSplitPointSLP_spec (contents : List Content) :
    ((∀ c ∈ contents, c.role ≠ "user") → findCompressSplitPointSLP contents 5 = Option.none) ∧
    (∀ k : ℕ, IsLastUserIndex contents k →
      (5 ≤ k → findCompressSplitPointSLP contents 5 =
        some ⟨k, contents.take k, contents.drop k⟩) ∧
      (k < 5 → findCompressSplitPointSLP contents 5 = Option.none)) := by
  constructor
  · intro h
    have : lastUserIndex contents = -1 := (lastUserIndex_eq_neg_one contents).mpr h
    simp [findCompressSplitPointSLP, this]
  · intro k hk
    have h := lastUserIndex_of_isLast contents k hk
    constructor
    · intro h5
      simp only [findCompressSplitPointSLP, h]
      rw [if_neg (by omega), if_neg (by push_cast; omega)]
      simp
    · intro h5
      simp only [findCompressSplitPointSLP, h]
      by_cases h0 : k = 0
      · subst h0; simp
      · rw [if_neg (by omega), if_pos (by push_cast; omega)]

/-- Witness for claim C3: a ten message alternating history whose last
user message sits at index 8, matching the scenario of the spec; the
split compresses the first eight messages and keeps two. -/
theorem findCompressSplitPointSLP_spec_witness :
    findCompressSplitPointSLP
      [⟨"user", []⟩, ⟨"model", []⟩, ⟨"user", []⟩, ⟨"model", []⟩, ⟨"user", []⟩,
       ⟨"model", []⟩, ⟨"user", []⟩, ⟨"model", []⟩, ⟨"user", []⟩, ⟨"model", []⟩] 5 =
      some ⟨8,
        [⟨"user", []⟩, ⟨"model", []⟩, ⟨"user", []⟩, ⟨"model", []⟩, ⟨"user", []⟩,
         ⟨"model", []⟩, ⟨"user", []⟩, ⟨"model", []⟩],
        [⟨"user", []⟩, ⟨"model", []⟩]⟩ :=
  ((findCompressSplitPointSLP_spec _).2 8 ⟨by decide, by decide, by decide⟩).1 (by decide)

/-- A user-role message carrying no functionResponse part: the only kind
of index (besides 0 and the full length) at which the percentage scan may
split, per the boundary test inside findCompressSplitPoint. -/
def isValidSplitContent (c : Content) : Bool :=
  c.role == "user" && !(c.parts.any fun p => p.functionResponse)

/-- Outcome of the forward scan of the percentage strategy: either an
early return at an index, or the loop finished with a last split point. -/
inductive ScanOutcome where
  | early (i : ℕ)
  | done (lastSplitPoint : ℕ)
  deriving DecidableEq

/-- Embedding of the forward accumulation loop shared by both percentage
forms of findCompressSplitPoint.  `cc` is the opaque per-message weight,
standing for JSON.stringify(content).length in the source; `i` is the
current index, `cum` the accumulated weight so far, `lsp` the last split
point seen. -/
def splitScan (cc : Content → ℕ) (target : ℚ) :
    List Content → ℕ → ℚ → ℕ → ScanOutcome
  | [], _, _, lsp => ScanOutcome.done lsp
  | c :: rest, i, cum, lsp =>
    if isValidSplitContent c then
      if target ≤ cum then ScanOutcome.early i
      else splitScan cc target rest (i + 1) (cum + cc c) i
    else splitScan cc target rest (i + 1) (cum + cc c) lsp

/-- Shared body of the percentage strategy after fraction validation:
scan for the first valid user boundary at or past the weight target; if
none, compress everything when the final message is a model message with
no functionCall part, otherwise fall back to the last valid boundary. -/
def splitIndexPct (cc : Content → ℕ) (contents : List Content) (fraction : ℚ) : ℕ :=
  let totalCharCount : ℚ := ((contents.map cc).sum : ℕ)
  let targetCharCount := totalCharCount * fraction
  match splitScan cc targetCharCount contents 0 0 0 with
  | ScanOutcome.early i => i
  | ScanOutcome.done lsp =>
    match contents.getLast? with
    | some last =>
      if last.role == "model" && !(last.parts.any fun p => p.functionCall) then
        contents.length
      else lsp
    | Option.none => lsp

/-- Embedding of the legacy numeric form of findCompressSplitPoint: a
fraction outside the open interval (0, 1) throws; otherwise the scan body
runs.  The thrown error is modelled as the Except error case. -/
def findCompressSplitPointNum (cc : Content → ℕ) (contents : List Content) (fraction : ℚ) :
    Except String ℕ :=
  if fraction ≤ 0 ∨ 1 ≤ fraction then Except.error "Fraction must be between 0 and 1"
  else Except.ok (splitIndexPct cc contents fraction)

/-- Embedding of the options form of findCompressSplitPoint with the
percentage strategy: the same scan with fraction 1 - preserveThreshold and
no validation, returning the split with its two slices. -/
def findCompressSplitPointPctOpts (cc : Content → ℕ) (contents : List Content)
    (preserveThreshold : ℚ) : SplitPointResult :=
  let n := splitIndexPct cc contents (1 - preserveThreshold)
  ⟨n, contents.take n, contents.drop n⟩

/-- A split index is a valid boundary for a history: zero, or an index of
a user message with no functionResponse part, or the full length with the
final message a model message carrying no functionCall part. -/
def BoundaryOk (l : List Content) (n : ℕ) : Prop :=
  n = 0 ∨
  (∃ h : n < l.length, isValidSplitContent (l.get ⟨n, h⟩) = true) ∨
  (n = l.length ∧ ∃ last, l.getLast? = some last ∧ last.role = "model" ∧
    (last.parts.any fun p => p.functionCall) = false)

theorem splitScan_sound (cc : Content → ℕ) (target : ℚ) (contents : List Content) :
    ∀ (rest : List Content) (i : ℕ) (cum : ℚ) (lsp : ℕ),
      rest = contents.drop i → BoundaryOk contents lsp →
      (∀ j, splitScan cc target rest i cum lsp = ScanOutcome.early j → BoundaryOk contents j) ∧
      (∀ j, splitScan cc target rest i cum lsp = ScanOutcome.done j → BoundaryOk contents j) := by
  intro rest
  induction rest with
  | nil =>
    intro i cum lsp _ hlsp
    exact ⟨fun j h => by simp [splitScan] at h, fun j h => by
      simp only [splitScan, ScanOutcome.done.injEq] at h
      exact h ▸ hlsp⟩
  | cons c rest' ih =>
    intro i cum lsp hdrop hlsp
    have hi : i < contents.length := by
      by_contra hge
      rw [List.drop_eq_nil_of_le (by omega)] at hdrop
      exact List.cons_ne_nil c rest' hdrop
    have hcons := hdrop.trans (List.drop_eq_getElem_cons hi)
    injection hcons with hc hrest
    have hvalid : isValidSplitContent (contents.get ⟨i, hi⟩) = true →
        BoundaryOk contents i := fun hv => Or.inr (Or.inl ⟨hi, hv⟩)
    simp only [splitScan]
    by_cases hv : isValidSplitContent c
    · rw [if_pos hv]
      by_cases ht : target ≤ cum
      · rw [if_pos ht]
        refine ⟨fun j h => ?_, fun j h => by simp at h⟩
        simp only [ScanOutcome.early.injEq] at h
        subst h
        exact hvalid (by rw [List.get_eq_getElem, ← hc]; exact hv)
      · rw [if_neg ht]
        exact ih (i + 1) (cum + cc c) i hrest
          (hvalid (by rw [List.get_eq_getElem, ← hc]; exact hv))
    · rw [if_neg hv]
      exact ih (i + 1) (cum + cc c) lsp hrest hlsp

theorem splitIndexPct_boundaryOk (cc : Content → ℕ) (contents : List Content) (fraction : ℚ) :
    BoundaryOk contents (splitIndexPct cc contents fraction) := by
  have hsound := splitScan_sound cc
    (((contents.map cc).sum : ℕ) * fraction) contents contents 0 0 0 (by simp) (Or.inl rfl)
  simp only [splitIndexPct]
  cases hscan : splitScan cc (((contents.map cc).sum : ℕ) * fraction) contents 0 0 0 with
  | early i => exact hsound.1 i hscan
  | done lsp =>
    dsimp only
    cases hlast : contents.getLast? with
    | none => exact hsound.2 lsp hscan
    | some last =>
      dsimp only
      by_cases hm : (last.role == "model" && !(last.parts.any fun p => p.functionCall)) = true
      · rw [if_pos hm]
        simp only [Bool.and_eq_true, beq_iff_eq, Bool.not_eq_eq_eq_not, Bool.not_true] at hm
        exact Or.inr (Or.inr ⟨rfl, last, hlast, hm.1, by simpa using hm.2⟩)
      · rw [if_neg hm]
        exact hsound.2 lsp hscan

/-- Claim C8: every split index produced by the percentage strategy, in
both the legacy numeric form and the options form, is a valid boundary:
zero, or an index holding a user message with no functionResponse part,
or the full history length, the latter only when the final message is a
model message with no functionCall part; the kept portion therefore never
starts inside a tool-call and response pair. -/
theorem findCompressSplitPoint_percentage_boundary
    (cc : Content → ℕ) (contents : List Content) (fraction preserveThreshold : ℚ) :
    (∀ n, findCompressSplitPointNum cc contents fraction = Except.ok n →
      BoundaryOk contents n) ∧
    BoundaryOk contents (findCompressSplitPointPctOpts cc contents preserveThreshold).splitIndex := by
  constructor
  · intro n hn
    simp only [findCompressSplitPointNum] at hn
    split at hn
    · exact absurd hn (by simp)
    · simp only [Except.ok.injEq] at hn
      exact hn ▸ splitIndexPct_boundaryOk cc contents fraction
  · exact splitIndexPct_boundaryOk cc contents (1 - preserveThreshold)

/-- Witness for claim C8: a two message history whose final model message
has no pending functionCall is compressed in full, and the returned index
2 equals the history length with the model-message side condition. -/
theorem findCompressSplitPoint_percentage_boundary_witness :
    BoundaryOk [⟨"user", []⟩, ⟨"model", []⟩] 2 :=
  (findCompressSplitPoint_percentage_boundary (fun _ => 1)
    [⟨"user", []⟩, ⟨"model", []⟩] (7/10) (3/10)).1 2 (by
      simp only [findCompressSplitPointNum]
      rw [if_neg (by norm_num)]
      norm_num [splitIndexPct, splitScan, isValidSplitContent]
      rw [if_neg (by decide)])

/-- Claim C10: the legacy numeric form of findCompressSplitPoint throws
exactly when the fraction is at most 0 or at least 1, and for every
fraction strictly between 0 and 1 it never throws and returns a number. -/
theorem findCompressSplitPointNum_fraction_guard
    (cc : Content → ℕ) (contents : List Content) (fraction : ℚ) :
    ((fraction ≤ 0 ∨ 1 ≤ fraction) →
      findCompressSplitPointNum cc contents fraction =
        Except.error "Fraction must be between 0 and 1") ∧
    (0 < fraction → fraction < 1 →
      ∃ n, findCompressSplitPointNum cc contents fraction = Except.ok n) := by
  constructor
  · intro h
    simp [findCompressSplitPointNum, h]
  · intro h0 h1
    refine ⟨splitIndexPct cc contents fraction, ?_⟩
    simp only [findCompressSplitPointNum]
    rw [if_neg (by push_neg; exact ⟨h0, h1⟩)]

/-- Witness for claim C10: fraction 2 throws, fraction 7/10 returns. -/
theorem findCompressSplitPointNum_fraction_guard_witness :
    findCompressSplitPointNum (fun _ => 1) [] 2 =
      Except.error "Fraction must be between 0 and 1" ∧
    ∃ n, findCompressSplitPointNum (fun _ => 1) [] (7/10) = Except.ok n :=
  ⟨(findCompressSplitPointNum_fraction_guard (fun _ => 1) [] 2).1 (by norm_num),
   (findCompressSplitPointNum_fraction_guard (fun _ => 1) [] (7/10)).2
     (by norm_num) (by norm_num)⟩

/-- Whitespace as matched by the regex class backslash-s and by trim, for
the character set that occurs in model responses. -/
def isWs (c : Char) : Bool :=
  c == ' ' || c == '\t' || c == '\n' || c == '\r'

/-- Trim of a character list: whitespace removed from both ends, the
effect of String.prototype.trim combined with the greedy whitespace
wrappers around the lazy capture group of the goal regex. -/
def trimChars (l : List Char) : List Char :=
  ((l.dropWhile isWs).reverse.dropWhile isWs).reverse

/-- First occurrence of a non-empty pattern in a character list: the text
before the occurrence and the text after it, or none when the pattern does
not occur.  This models the leftmost-match discipline of regex exec. -/
def findSplit (pat : List Char) : List Char → Option (List Char × List Char)
  | [] => Option.none
  | c :: cs =>
    if pat.isPrefixOf (c :: cs) then some ([], (c :: cs).drop pat.length)
    else
      match findSplit pat cs with
      | some (pre, suf) => some (c :: pre, suf)
      | Option.none => Option.none

/-- Embedding of the global regex loop of GoalExtractionService.parseGoals
over the pattern goal-open, lazy dotall capture, goal-close: repeatedly
take the text between the next goal-open tag and the earliest goal-close
tag after it, trim it, keep it when non-empty, and continue after the
closing tag.  Fuel bounds the recursion; one unit per match is ample since
every match consumes at least the two tags. -/
def parseGoalsAux (openTag closeTag : List Char) : ℕ → List Char → List (List Char)
  | 0, _ => []
  | fuel + 1, s =>
    match findSplit openTag s with
    | Option.none => []
    | some (_, rest) =>
      match findSplit closeTag rest with
      | Option.none => []
      | some (content, rest2) =>
        let g := trimChars content
        if g = [] then parseGoalsAux openTag closeTag fuel rest2
        else g :: parseGoalsAux openTag closeTag fuel rest2

/-- The goal list parsed from a model response text. -/
def parseGoals (text : String) : List String :=
  (parseGoalsAux "<goal>".data "</goal>".data (text.length + 1) text.data).map
    fun l => String.mk l

/-- Confidence levels of a goal extraction result. -/
inductive Confidence where
  | high
  | medium
  | low
  | none
  deriving DecidableEq

/-- Embedding of GoalExtractionService.determineConfidence. -/
def determineConfidence (goals : List String) : Confidence :=
  if goals.length = 0 then Confidence.none
  else if goals.length = 1 ∧ 30 < goals.headI.length then Confidence.high
  else if 2 ≤ goals.length then Confidence.medium
  else Confidence.low

/-- Result shape of GoalExtractionService.extractGoals. -/
structure GoalExtractionResult where
  goals : List String
  confidence : Confidence
  error : Option String
  deriving DecidableEq

/-- A JavaScript thrown value as the catch block inspects it: whether it
is an Error instance and its message. -/
structure JsError where
  isError : Bool
  message : String
  deriving DecidableEq

/-- Embedding of GoalExtractionService.extractGoals.  The raced model call
is a parameter: ok carries the response text already extracted (the null
coalescing to the empty string happens at the caller of this parameter),
error carries the thrown value; the timeout loser rejects with an Error
whose message is Timeout. -/
def extractGoals (raceOutcome : Except JsError String) : GoalExtractionResult :=
  match raceOutcome with
  | Except.ok text =>
    let goals := parseGoals text
    ⟨goals, determineConfidence goals, Option.none⟩
  | Except.error e =>
    ⟨[], Confidence.none,
      some (if e.isError && e.message == "Timeout" then "timeout" else "extraction_failed")⟩

/-- Decision shape of DeliberateCompressionHandler.shouldPromptUser. -/
structure PromptDecision where
  shouldPrompt : Bool
  reason : String
  fallbackToBasicCompression : Option Bool
  deriving DecidableEq

/-- Embedding of DeliberateCompressionHandler.shouldPromptUser; the
autoSkip flag is the awaited config.getDeliberateCompressionAutoSkip(). -/
def shouldPromptUser (res : GoalExtractionResult) (autoSkip : Bool)
    (isSafetyValve : Bool) : PromptDecision :=
  if isSafetyValve then ⟨false, "safety_valve", some true⟩
  else if res.error = some "timeout" then ⟨false, "extraction_timeout", some true⟩
  else if res.goals.length = 0 then ⟨false, "no_goals", some true⟩
  else if autoSkip then ⟨false, "auto_skip_enabled", some true⟩
  else ⟨true, "goals_found", Option.none⟩

/-- Counterexample for claim C6: a response carrying four goal tags yields
four goals; parseGoals imposes no three-entry cap, so the extraction
result violates the stated bound of at most three entries. -/
theorem parseGoals_three_cap_cex :
    ¬((extractGoals (Except.ok
        "<goals><goal>a</goal><goal>b</goal><goal>c</goal><goal>d</goal></goals>")).goals.length
      ≤ 3) := by decide

theorem parseGoalsAux_entries_nonempty (openTag closeTag : List Char) :
    ∀ (fuel : ℕ) (s : List Char), ∀ l ∈ parseGoalsAux openTag closeTag fuel s, l ≠ [] := by
  intro fuel
  induction fuel with
  | zero => intro s l hl; simp [parseGoalsAux] at hl
  | succ fuel ih =>
    intro s l hl
    simp only [parseGoalsAux] at hl
    cases h1 : findSplit openTag s with
    | none => rw [h1] at hl; simp at hl
    | some pr =>
      obtain ⟨pre, rest⟩ := pr
      rw [h1] at hl
      dsimp only at hl
      cases h2 : findSplit closeTag rest with
      | none => rw [h2] at hl; simp at hl
      | some pr2 =>
        obtain ⟨content, rest2⟩ := pr2
        rw [h2] at hl
        dsimp only at hl
        by_cases hg : trimChars content = []
        · rw [if_pos hg] at hl
          exact ih rest2 l hl
        · rw [if_neg hg] at hl
          rcases List.mem_cons.mp hl with heq | hmem
          · exact heq ▸ hg
          · exact ih rest2 l hmem

/-- Claim C6 amended: the goals list of a successful extraction is exactly
the list of trimmed, non-empty goal tag contents of the response text, in
order, with every entry non-empty but with no enforced upper bound on the
number of entries; the three-goal limit is only requested of the model in
the prompt, never enforced by the parser. -/
theorem extractGoals_goals_characterization (text : String) :
    (extractGoals (Except.ok text)).goals = parseGoals text ∧
    ∀ g ∈ parseGoals text, g ≠ "" := by
  refine ⟨rfl, fun g hg => ?_⟩
  simp only [parseGoals, List.mem_map] at hg
  obtain ⟨l, hl, rfl⟩ := hg
  have hne := parseGoalsAux_entries_nonempty "<goal>".data "</goal>".data
    (text.length + 1) text.data l hl
  intro hcontra
  exact hne (congrArg String.data hcontra)

/-- Witness for claim C6 amended: on a response with one goal tag the
extraction result equals the parsed goal list and the parsed entry is
non-empty. -/
theorem extractGoals_goals_characterization_witness :
    (extractGoals (Except.ok "<goals><goal>hi</goal></goals>")).goals =
      parseGoals "<goals><goal>hi</goal></goals>" ∧ "hi" ≠ "" :=
  ⟨(extractGoals_goals_characterization "<goals><goal>hi</goal></goals>").1,
   (extractGoals_goals_characterization "<goals><goal>hi</goal></goals>").2 "hi" (by decide)⟩

/-- Counterexample for claim C7: a timeout extraction result evaluated
while the safety valve is active is refused with reason safety_valve, not
extraction_timeout, because the safety-valve check precedes the timeout
check in shouldPromptUser. -/
theorem shouldPromptUser_timeout_reason_cex :
    shouldPromptUser ⟨[], Confidence.none, some "timeout"⟩ false true =
      ⟨false, "safety_valve", some true⟩ ∧
    ("safety_valve" : String) ≠ "extraction_timeout" := by decide

/-- Claim C7 amended: a failed or timed out extraction never raises and
returns zero goals with confidence none and the explicit tag timeout for a
raced-out Error with message Timeout and extraction_failed otherwise; for
every result tagged timeout, shouldPromptUser declines to prompt with
fallback to basic compaction, with reason extraction_timeout when the
safety valve is inactive and reason safety_valve when it is active, so the
user is never prompted after a timeout. -/
theorem extractGoals_failure_fallback :
    (∀ e : JsError, extractGoals (Except.error e) =
      ⟨[], Confidence.none,
        some (if e.isError && e.message == "Timeout" then "timeout"
              else "extraction_failed")⟩) ∧
    (∀ (res : GoalExtractionResult) (autoSkip : Bool), res.error = some "timeout" →
      shouldPromptUser res autoSkip false = ⟨false, "extraction_timeout", some true⟩ ∧
      shouldPromptUser res autoSkip true = ⟨false, "safety_valve", some true⟩ ∧
      ∀ sv : Bool, (shouldPromptUser res autoSkip sv).shouldPrompt = false) := by
  refine ⟨fun e => rfl, fun res autoSkip hres => ⟨?_, rfl, fun sv => ?_⟩⟩
  · simp [shouldPromptUser, hres]
  · cases sv
    · simp [shouldPromptUser, hres]
    · rfl

/-- Witness for claim C7 amended: the concrete timeout result with the
safety valve inactive is declined with reason extraction_timeout. -/
theorem extractGoals_failure_fallback_witness :
    shouldPromptUser ⟨[], Confidence.none, some "timeout"⟩ false false =
      ⟨false, "extraction_timeout", some true⟩ :=
  (extractGoals_failure_fallback.2 ⟨[], Confidence.none, some "timeout"⟩ false rfl).1

/-- Compression status codes used by ChatCompressionService.compress. -/
inductive CompressionStatus where
  | NOOP
  | COMPRESSED
  | COMPRESSION_FAILED_INFLATED_TOKEN_COUNT
  deriving DecidableEq

/-- The two preserve strategies of the compression options. -/
inductive PreserveStrategy where
  | percentage
  | sinceLastPrompt
  deriving DecidableEq

/-- CompressionOptions as consumed by compress; absent fields are none. -/
structure CompressionOptions where
  userGoal : Option String
  preserveStrategy : Option PreserveStrategy
  preserveThreshold : Option ℚ
  deriving DecidableEq

/-- ChatCompressionInfo returned by compress; fields the NOOP returns do
not set are none. -/
structure ChatCompressionInfo where
  originalTokenCount : ℕ
  newTokenCount : ℕ
  compressionStatus : CompressionStatus
  messagesPreserved : Option ℕ
  messagesCompressed : Option ℕ
  goalWasSelected : Option Bool
  discardedContextSummary : Option String
  deriving DecidableEq

/-- Embedding of extractDiscardedContextSummary: the trimmed content of
the first discarded_context_summary tag pair, or none. -/
def extractDiscardedContextSummary (text : String) : Option String :=
  match findSplit "<discarded_context_summary>".data text.data with
  | Option.none => Option.none
  | some (_, rest) =>
    match findSplit "</discarded_context_summary>".data rest with
    | Option.none => Option.none
    | some (content, _) => some (String.mk (trimChars content))

/-- The strategy-selection and split step of compress: since-last-prompt
with minimum 5 falls back to the legacy percentage call with fraction
1 - 0.3 when no split is possible; the percentage strategy calls the
legacy form with fraction 1 - (preserveThreshold default 0.3).  A fraction
validation error propagates as a thrown error. -/
def compressSplit (cc : Content → ℕ) (history : List Content)
    (options : Option CompressionOptions) : Except String (List Content × List Content) :=
  match (options.bind fun o => o.preserveStrategy).getD PreserveStrategy.percentage with
  | PreserveStrategy.sinceLastPrompt =>
    match findCompressSplitPointSLP history 5 with
    | some r => Except.ok (r.historyToCompress, r.historyToKeep)
    | Option.none =>
      match findCompressSplitPointNum cc history (1 - (3/10 : ℚ)) with
      | Except.ok n => Except.ok (history.take n, history.drop n)
      | Except.error e => Except.error e
  | PreserveStrategy.percentage =>
    match findCompressSplitPointNum cc history
        (1 - ((options.bind fun o => o.preserveThreshold).getD (3/10))) with
    | Except.ok n => Except.ok (history.take n, history.drop n)
    | Except.error e => Except.error e

/-- Embedding of ChatCompressionService.compress.  External collaborators
are parameters: `cc` is the per-message serialized length used by the
split, `summarize` the summarization model call as a function of the
compressed slice and the user goal, `mkInitialHistory` the
getInitialChatHistory reconstruction, `countTokens` the token estimator
over the flattened parts, `originalTokenCount` the last prompt token
count, `threshold` the resolved compression threshold (config value or
default 0.5), `tokenLimitModel` the token limit of the model.  The result
pairs the nullable new history with the info record; a thrown error is
the Except error case. -/
def compress (cc : Content → ℕ) (summarize : List Content → Option String → String)
    (mkInitialHistory : List Content → List Content) (countTokens : List Part → ℕ)
    (curatedHistory : List Content) (originalTokenCount : ℕ) (force : Bool)
    (threshold : ℚ) (tokenLimitModel : ℕ) (hasFailedCompressionAttempt : Bool)
    (options : Option CompressionOptions) :
    Except String (Option (List Content) × ChatCompressionInfo) :=
  if curatedHistory.length = 0 ∨ (hasFailedCompressionAttempt = true ∧ force = false) then
    Except.ok (Option.none,
      ⟨0, 0, CompressionStatus.NOOP, Option.none, Option.none, Option.none, Option.none⟩)
  else if force = false ∧ (originalTokenCount : ℚ) < threshold * (tokenLimitModel : ℚ) then
    Except.ok (Option.none,
      ⟨originalTokenCount, originalTokenCount, CompressionStatus.NOOP,
        Option.none, Option.none, Option.none, Option.none⟩)
  else
    match compressSplit cc curatedHistory options with
    | Except.error e => Except.error e
    | Except.ok (historyToCompress, historyToKeep) =>
      if historyToCompress.length = 0 then
        Except.ok (Option.none,
          ⟨originalTokenCount, originalTokenCount, CompressionStatus.NOOP,
            Option.none, Option.none, Option.none, Option.none⟩)
      else
        let userGoal := options.bind fun o => o.userGoal
        let summary := summarize historyToCompress userGoal
        let discarded := extractDiscardedContextSummary summary
        let extraHistory : List Content :=
          ⟨"user", [⟨some summary, false, false⟩]⟩ ::
            ⟨"model", [⟨some "Got it. Thanks for the additional context!", false, false⟩]⟩ ::
            historyToKeep
        let fullNewHistory := mkInitialHistory extraHistory
        let newTokenCount := countTokens (fullNewHistory.flatMap Content.parts)
        if originalTokenCount < newTokenCount then
          Except.ok (Option.none,
            ⟨originalTokenCount, newTokenCount,
              CompressionStatus.COMPRESSION_FAILED_INFLATED_TOKEN_COUNT,
              some historyToKeep.length, some historyToCompress.length,
              some userGoal.isSome, discarded⟩)
        else
          Except.ok (some extraHistory,
            ⟨originalTokenCount, newTokenCount, CompressionStatus.COMPRESSED,
              some historyToKeep.length, some historyToCompress.length,
              some userGoal.isSome, discarded⟩)

/-- Counterexample for claim C1: a summarization whose recomputed token
count exactly equals the original count returns COMPRESSED with
newTokenCount = originalTokenCount, because the inflation check uses a
strict greater-than; the equality case is not strictly smaller and yet is
not reported as COMPRESSION_FAILED_INFLATED_TOKEN_COUNT. -/
theorem compress_strict_reduction_cex :
    compress (fun _ => 1) (fun _ _ => "s") id (fun _ => 10)
      [⟨"user", []⟩, ⟨"model", []⟩] 10 true (1/2) 100 false Option.none =
      Except.ok (some
        [⟨"user", [⟨some "s", false, false⟩]⟩,
         ⟨"model", [⟨some "Got it. Thanks for the additional context!", false, false⟩]⟩],
        ⟨10, 10, CompressionStatus.COMPRESSED, some 0, some 2, some false, Option.none⟩) ∧
    ¬(10 < 10) := by
  constructor
  · have hnum : findCompressSplitPointNum (fun _ => 1)
        [⟨"user", []⟩, ⟨"model", []⟩] (1 - (3/10 : ℚ)) = Except.ok 2 := by
      simp only [findCompressSplitPointNum]
      rw [if_neg (by norm_num)]
      norm_num [splitIndexPct, splitScan, isValidSplitContent]
      rw [if_neg (by decide)]
    have hsplit : compressSplit (fun _ => 1) [⟨"user", []⟩, ⟨"model", []⟩] Option.none =
        Except.ok ([⟨"user", []⟩, ⟨"model", []⟩], []) := by
      simp only [compressSplit, Option.bind, Option.getD]
      rw [hnum]
      rfl
    simp only [compress]
    rw [if_neg (by simp), if_neg (by simp), hsplit]
    rfl
  · norm_num

/-- Claim C1 amended: every result compress returns with status COMPRESSED
satisfies newTokenCount at most originalTokenCount, and every attempt
whose recomputed newTokenCount is strictly greater than the original
count returns COMPRESSION_FAILED_INFLATED_TOKEN_COUNT with a null new
history; the equality case newTokenCount = originalTokenCount is returned
as COMPRESSED, not as a failure. -/
theorem compress_token_validation (cc : Content → ℕ)
    (summarize : List Content → Option String → String)
    (mkInitialHistory : List Content → List Content) (countTokens : List Part → ℕ)
    (curatedHistory : List Content) (originalTokenCount : ℕ) (force : Bool)
    (threshold : ℚ) (tokenLimitModel : ℕ) (hasFailedCompressionAttempt : Bool)
    (options : Option CompressionOptions)
    (r : Option (List Content) × ChatCompressionInfo)
    (h : compress cc summarize mkInitialHistory countTokens curatedHistory
      originalTokenCount force threshold tokenLimitModel hasFailedCompressionAttempt
      options = Except.ok r) :
    (r.2.compressionStatus = CompressionStatus.COMPRESSED →
      r.2.newTokenCount ≤ r.2.originalTokenCount) ∧
    (r.2.compressionStatus = CompressionStatus.COMPRESSION_FAILED_INFLATED_TOKEN_COUNT →
      r.2.originalTokenCount < r.2.newTokenCount ∧ r.1 = Option.none) := by
  simp only [compress] at h
  split at h
  · simp only [Except.ok.injEq] at h
    subst h
    exact ⟨fun hs => by simp at hs, fun hs => by simp at hs⟩
  · split at h
    · simp only [Except.ok.injEq] at h
      subst h
      exact ⟨fun hs => by simp at hs, fun hs => by simp at hs⟩
    · split at h
      · exact absurd h (by simp)
      · rename_i htc htk heq
        split at h
        · simp only [Except.ok.injEq] at h
          subst h
          exact ⟨fun hs => by simp at hs, fun hs => by simp at hs⟩
        · split at h
          · rename_i hgt
            simp only [Except.ok.injEq] at h
            subst h
            exact ⟨fun hs => by simp at hs, fun _ => ⟨hgt, rfl⟩⟩
          · rename_i hle
            simp only [Except.ok.injEq] at h
            subst h
            exact ⟨fun _ => Nat.le_of_not_lt hle, fun hs => by simp at hs⟩

/-- Witness for claim C1 amended: the empty-history NOOP result satisfies
both vacuous implications of the validation property. -/
theorem compress_token_validation_witness :
    (((Option.none : Option (List Content)),
        (⟨0, 0, CompressionStatus.NOOP, Option.none, Option.none, Option.none,
          Option.none⟩ : ChatCompressionInfo)).2.compressionStatus =
        CompressionStatus.COMPRESSED →
      ((Option.none : Option (List Content)),
        (⟨0, 0, CompressionStatus.NOOP, Option.none, Option.none, Option.none,
          Option.none⟩ : ChatCompressionInfo)).2.newTokenCount ≤
      ((Option.none : Option (List Content)),
        (⟨0, 0, CompressionStatus.NOOP, Option.none, Option.none, Option.none,
          Option.none⟩ : ChatCompressionInfo)).2.originalTokenCount) ∧
    (((Option.none : Option (List Content)),
        (⟨0, 0, CompressionStatus.NOOP, Option.none, Option.none, Option.none,
          Option.none⟩ : ChatCompressionInfo)).2.compressionStatus =
        CompressionStatus.COMPRESSION_FAILED_INFLATED_TOKEN_COUNT →
      ((Option.none : Option (List Content)),
        (⟨0, 0, CompressionStatus.NOOP, Option.none, Option.none, Option.none,
          Option.none⟩ : ChatCompressionInfo)).2.originalTokenCount <
      ((Option.none : Option (List Content)),
        (⟨0, 0, CompressionStatus.NOOP, Option.none, Option.none, Option.none,
          Option.none⟩ : ChatCompressionInfo)).2.newTokenCount ∧
      ((Option.none : Option (List Content)),
        (⟨0, 0, CompressionStatus.NOOP, Option.none, Option.none, Option.none,
          Option.none⟩ : ChatCompressionInfo)).1 = Option.none) :=
  compress_token_validation (fun _ => 1) (fun _ _ => "s") id (fun _ => 0) [] 0 false
    (1/2) 100 false Option.none _ rfl

/-- Claim C9: compress returns status NOOP with no new history and without
consulting the summarization model (the result is identical for any two
summarizer, reconstruction and token-count collaborators) whenever the
curated history is empty, or a previous non-forced attempt failed and this
attempt is not forced, or the attempt is not forced and the original token
count is below threshold times the model token limit, or the computed
historyToCompress is empty. -/
theorem compress_noop_cases (cc : Content → ℕ)
    (s1 s2 : List Content → Option String → String)
    (m1 m2 : List Content → List Content) (t1 t2 : List Part → ℕ)
    (curatedHistory : List Content) (originalTokenCount : ℕ) (force : Bool)
    (threshold : ℚ) (tokenLimitModel : ℕ) (hasFailedCompressionAttempt : Bool)
    (options : Option CompressionOptions)
    (hcond : curatedHistory = [] ∨
      (hasFailedCompressionAttempt = true ∧ force = false) ∨
      (force = false ∧ (originalTokenCount : ℚ) < threshold * (tokenLimitModel : ℚ)) ∨
      (∃ keep, compressSplit cc curatedHistory options = Except.ok ([], keep))) :
    ∃ info, compress cc s1 m1 t1 curatedHistory originalTokenCount force threshold
        tokenLimitModel hasFailedCompressionAttempt options =
        Except.ok (Option.none, info) ∧
      compress cc s2 m2 t2 curatedHistory originalTokenCount force threshold
        tokenLimitModel hasFailedCompressionAttempt options =
        Except.ok (Option.none, info) ∧
      info.compressionStatus = CompressionStatus.NOOP := by
  by_cases h1 : curatedHistory.length = 0 ∨
      (hasFailedCompressionAttempt = true ∧ force = false)
  · refine ⟨⟨0, 0, CompressionStatus.NOOP, Option.none, Option.none, Option.none,
      Option.none⟩, ?_, ?_, rfl⟩ <;>
      (simp only [compress]; rw [if_pos h1])
  · by_cases h2 : force = false ∧
        (originalTokenCount : ℚ) < threshold * (tokenLimitModel : ℚ)
    · refine ⟨⟨originalTokenCount, originalTokenCount, CompressionStatus.NOOP,
        Option.none, Option.none, Option.none, Option.none⟩, ?_, ?_, rfl⟩ <;>
        (simp only [compress]; rw [if_neg h1, if_pos h2])
    · rcases hcond with hc | hc | hc | ⟨keep, hsplit⟩
      · exact absurd (Or.inl (by simp [hc])) h1
      · exact absurd (Or.inr hc) h1
      · exact absurd hc h2
      · refine ⟨⟨originalTokenCount, originalTokenCount, CompressionStatus.NOOP,
          Option.none, Option.none, Option.none, Option.none⟩, ?_, ?_, rfl⟩ <;>
          (simp only [compress]; rw [if_neg h1, if_neg h2, hsplit]; rfl)

/-- Witness for claim C9: an empty curated history yields the NOOP result
for two distinct summarizer and token-count collaborators. -/
theorem compress_noop_cases_witness :
    ∃ info, compress (fun _ => 1) (fun _ _ => "s") id (fun _ => 0) [] 0 false (1/2)
        100 false Option.none = Except.ok (Option.none, info) ∧
      compress (fun _ => 1) (fun _ _ => "t") id (fun _ => 99) [] 0 false (1/2)
        100 false Option.none = Except.ok (Option.none, info) ∧
      info.compressionStatus = CompressionStatus.NOOP :=
  compress_noop_cases (fun _ => 1) (fun _ _ => "s") (fun _ _ => "t") id id
    (fun _ => 0) (fun _ => 99) [] 0 false (1/2) 100 false Option.none (Or.inl rfl)

/-- Per-session guard state of GeminiClient relevant to compaction. -/
structure ClientState where
  isCompressing : Bool
  hasFailedCompressionAttempt : Bool
  messagesSinceLastCompress : ℕ
  lastCompressionTime : ℤ
  deriving DecidableEq

/-- The suspension points of one compaction attempt, in source order: the
goal-extraction call and the interactive prompt inside
handlePostResponseCompression, then the summarization call inside
tryCompressChat. -/
inductive SuspPoint where
  | goalExtraction
  | userPrompt
  | summarization
  deriving DecidableEq

/-- Embedding of GeminiClient.tryCompressChat as a state transformer: the
isCompressing lock is set on entry, the awaited compress call is the
outcome parameter (ok for a returned pair, error for a thrown exception),
guard counters are updated per status, and the finally clause clears the
lock on both exit paths.  The returned trace records, for each suspension
point inside the call, the value of the isCompressing flag a concurrent
evaluation would observe there. -/
def tryCompressChatModel (s : ClientState) (force : Bool)
    (outcome : Except Unit (Option (List Content) × ChatCompressionInfo)) (now : ℤ) :
    Except Unit ChatCompressionInfo × ClientState × List (SuspPoint × Bool) :=
  let s1 : ClientState := { s with isCompressing := true }
  let trace := [(SuspPoint.summarization, s1.isCompressing)]
  match outcome with
  | Except.error e => (Except.error e, { s1 with isCompressing := false }, trace)
  | Except.ok (newHistory, info) =>
    let s2 :=
      if info.compressionStatus =
          CompressionStatus.COMPRESSION_FAILED_INFLATED_TOKEN_COUNT then
        { s1 with hasFailedCompressionAttempt := !force }
      else if info.compressionStatus = CompressionStatus.COMPRESSED then
        match newHistory with
        | some _ => { s1 with messagesSinceLastCompress := 0, lastCompressionTime := now }
        | Option.none => s1
      else s1
    (Except.ok info, { s2 with isCompressing := false }, trace)

/-- Embedding of the attempt flow of
GeminiClient.handlePostResponseCompression: after a positive trigger
decision, the interactive preparation (goal extraction) and the
interactive prompt are awaited before tryCompressChat runs, so the trace
records the isCompressing value of the untouched state at those two
suspension points; tryCompressChat is then invoked with force true. -/
def handlePostResponseCompressionModel (s : ClientState) (interactive promptUser : Bool)
    (trigger : TriggerDecision)
    (outcome : Except Unit (Option (List Content) × ChatCompressionInfo)) (now : ℤ) :
    ClientState × List (SuspPoint × Bool) :=
  if !trigger.shouldCompress then (s, [])
  else
    let preTrace :=
      if interactive then
        (SuspPoint.goalExtraction, s.isCompressing) ::
          (if promptUser then [(SuspPoint.userPrompt, s.isCompressing)] else [])
      else []
    let r := tryCompressChatModel s true outcome now
    (r.2.1, preTrace ++ r.2.2)

/-- Counterexample for claim C4: in an attempt that reaches the
interactive prompt, the in-progress flag observed at the prompt suspension
point is false, because the prompt is shown before tryCompressChat sets
the lock; a concurrent trigger evaluation in that state does not report
compression_in_progress, so a second attempt is not rejected during the
prompt. -/
theorem compression_lock_prompt_cex :
    ((SuspPoint.userPrompt, false) ∈
      (handlePostResponseCompressionModel ⟨false, false, 0, 0⟩ true true
        (shouldTriggerCompression false 520000 1000000 40000 (1/2) 2 25 0 0 300)
        (Except.ok (Option.none,
          ⟨0, 0, CompressionStatus.NOOP, Option.none, Option.none, Option.none,
            Option.none⟩)) 5).2) ∧
    shouldTriggerCompression false 520000 1000000 40000 (1/2) 2 25 0 0 300 ≠
      ⟨false, "compression_in_progress", false⟩ := by
  have ht : shouldTriggerCompression false 520000 1000000 40000 (1/2) 2 25 0 0 300 =
      ⟨true, "utilization_threshold", true⟩ := by
    simp only [shouldTriggerCompression]
    rw [if_neg (by simp), if_pos (by norm_num)]
  rw [ht]
  decide

/-- Claim C4 amended: the in-progress flag is set for the duration of
tryCompressChat, covering the summarization call, and is cleared on every
exit path including a thrown error; while it is set, every trigger
evaluation returns shouldCompress false with reason
compression_in_progress, so a second concurrent attempt is rejected
immediately rather than queued.  The flag is not set during the
interactive prompt, which runs before tryCompressChat. -/
theorem compression_lock_spec (s : ClientState) (force : Bool)
    (outcome : Except Unit (Option (List Content) × ChatCompressionInfo)) (now : ℤ) :
    (∀ p ∈ (tryCompressChatModel s force outcome now).2.2, p.2 = true) ∧
    (tryCompressChatModel s force outcome now).2.1.isCompressing = false ∧
    (∀ (ct ml tt : ℕ) (ut : ℚ) (ms mm : ℕ) (lct n : ℤ) (mtb : ℚ),
      shouldTriggerCompression true ct ml tt ut ms mm lct n mtb =
        ⟨false, "compression_in_progress", false⟩) := by
  refine ⟨?_, ?_, fun ct ml tt ut ms mm lct n mtb => rfl⟩
  · intro p hp
    cases outcome with
    | error e =>
      simp only [tryCompressChatModel, List.mem_singleton] at hp
      rw [hp]
    | ok pr =>
      obtain ⟨nh, info⟩ := pr
      simp only [tryCompressChatModel, List.mem_singleton] at hp
      rw [hp]
  · cases outcome with
    | error e => rfl
    | ok pr => obtain ⟨nh, info⟩ := pr; rfl

/-- Witness for claim C4 amended: concrete error-path run clearing the
lock, the summarization point observing the lock set, and a concrete
locked trigger evaluation reporting compression_in_progress. -/
theorem compression_lock_spec_witness :
    ((SuspPoint.summarization, true) : SuspPoint × Bool).2 = true ∧
    (tryCompressChatModel ⟨false, false, 0, 0⟩ true (Except.error ()) 0).2.1.isCompressing
      = false ∧
    shouldTriggerCompression true 50000 1000000 40000 (1/2) 30 25 0 0 300 =
      ⟨false, "compression_in_progress", false⟩ :=
  ⟨(compression_lock_spec ⟨false, false, 0, 0⟩ true (Except.error ()) 0).1
      (SuspPoint.summarization, true) (by decide),
   (compression_lock_spec ⟨false, false, 0, 0⟩ true (Except.error ()) 0).2.1,
   (compression_lock_spec ⟨false, false, 0, 0⟩ true (Except.error ()) 0).2.2
      50000 1000000 40000 (1/2) 30 25 0 0 300⟩

end Compaction
